import Mathlib

/-!
Verification development for the pica-cart-magic storefront's cart logic.

The embedding models, from the source:
  * the anonymous (localStorage-backed) cart path of CartContext's
    addToCart / updateQuantity / removeFromCart / clearCart;
  * the authenticated (remote cart_items table) path, with the
    (user_id, product_id)-keyed upsert and the products foreign key;
  * syncLocalCart, the sign-in reconciliation;
  * loadLocalCart together with a model of JSON.parse;
  * the generate_order_id SQL function from the migration.
-/

/-- A cart line as stored in localStorage and rendered by the UI
(CartContext's CartItem interface). Prices are modelled as integers;
no claim involves price arithmetic. -/
structure CartItem where
  id : String
  product_id : String
  title : String
  price : Int
  qty : Int
  images : List String
deriving DecidableEq

/-- A catalog product row, restricted to the columns the cart code reads
(title, price, images) plus its id. -/
structure Product where
  id : String
  title : String
  price : Int
  images : List String
deriving DecidableEq

/-- A row of the cart_items table: (user_id, product_id) is unique,
qty is the stored quantity. The surrogate id column is irrelevant here. -/
structure RemoteRow where
  user_id : String
  product_id : String
  qty : Int
deriving DecidableEq

/-- A toast notification as issued by the mutation handlers. -/
structure Toast where
  title : String
  description : String
  destructive : Bool
deriving DecidableEq

/-- Product lookup: supabase .from products .eq id .single. -/
def findProduct (products : List Product) (productId : String) : Option Product :=
  products.find? (fun p => p.id == productId)

/-- Whether a product row with this id exists (the FK target check). -/
def productExists (products : List Product) (productId : String) : Bool :=
  products.any (fun p => p.id == productId)

/-- The predicate item.product_id === productId used by the local path. -/
def itemMatch (productId : String) (it : CartItem) : Bool :=
  it.product_id == productId

/-- The product_id column of each line, in order. -/
def pidsOf (items : List CartItem) : List String :=
  items.map (fun it => it.product_id)

/-- First-match quantity lookup in a local cart. -/
def getQtyLocal (items : List CartItem) (productId : String) : Option Int :=
  (items.find? (itemMatch productId)).map CartItem.qty

/-- currentItems[existingIndex].qty += qty at the first index whose
product_id matches (source lines 155-158: findIndex then in-place add). -/
def bumpFirst (productId : String) (qty : Int) : List CartItem → List CartItem
  | [] => []
  | it :: rest =>
      if itemMatch productId it then { it with qty := it.qty + qty } :: rest
      else it :: bumpFirst productId qty rest

/-- Result of the anonymous-path addToCart: new item list plus the
toasts and console.error logs it emitted. -/
structure LocalAddOutcome where
  items : List CartItem
  toasts : List Toast
  logs : List String
deriving DecidableEq

/-- Anonymous-path addToCart (source lines 141-178): look the product up;
if absent, bare return (no toast, no log, no state change); otherwise
increment the first existing line or push a fresh line, then toast.
freshId stands for Math.random().toString(36). -/
def addToCartLocal (products : List Product) (freshId : String)
    (currentItems : List CartItem) (productId : String) (qty : Int) :
    LocalAddOutcome :=
  match findProduct products productId with
  | none => ⟨currentItems, [], []⟩
  | some product =>
      let updated :=
        if currentItems.any (itemMatch productId) then
          bumpFirst productId qty currentItems
        else
          currentItems ++
            [⟨freshId, productId, product.title, product.price, qty,
              product.images⟩]
      ⟨updated,
       [⟨"Added to cart", product.title ++ " has been added to your cart.",
         false⟩],
       []⟩

/-- Anonymous-path removeFromCart (source lines 250-256): filter out
matching lines. -/
def removeFromCartLocal (currentItems : List CartItem) (productId : String) :
    List CartItem :=
  currentItems.filter (fun it => !(itemMatch productId it))

/-- updateQuantity on the anonymous path (source lines 214-228):
qty <= 0 delegates to remove before the auth check; otherwise map every
matching line to the exact new quantity. -/
def updateQuantityLocal (currentItems : List CartItem) (productId : String)
    (qty : Int) : List CartItem :=
  if qty ≤ 0 then removeFromCartLocal currentItems productId
  else
    currentItems.map
      (fun it => if itemMatch productId it then { it with qty := qty } else it)

/-- clearCart on the anonymous path (source lines 283-286): storage key
removed, items set to the empty list. -/
def clearCartLocal : List CartItem := []

/-- The (user_id, product_id) key predicate of the cart_items table. -/
def keyMatch (u productId : String) (r : RemoteRow) : Bool :=
  r.user_id == u && r.product_id == productId

/-- First-match quantity lookup among the remote rows. -/
def getQty (rows : List RemoteRow) (u productId : String) : Option Int :=
  (rows.find? (keyMatch u productId)).map RemoteRow.qty

/-- Whether the remote cart already has a row for this key. -/
def rowExists (rows : List RemoteRow) (u productId : String) : Bool :=
  rows.any (keyMatch u productId)

/-- Postgres upsert on conflict (user_id, product_id): an existing row has
its qty column SET to the given value; otherwise a row is inserted. -/
def upsertRow (rows : List RemoteRow) (u productId : String) (qty : Int) :
    List RemoteRow :=
  if rows.any (keyMatch u productId) then
    rows.map
      (fun r => if keyMatch u productId r then { r with qty := qty } else r)
  else rows ++ [⟨u, productId, qty⟩]

/-- The increment-on-conflict variant, written from the spec's words for
comparison; the source never performs it on the remote path. -/
def upsertRowAdd (rows : List RemoteRow) (u productId : String) (qty : Int) :
    List RemoteRow :=
  if rows.any (keyMatch u productId) then
    rows.map
      (fun r =>
        if keyMatch u productId r then { r with qty := r.qty + qty } else r)
  else rows ++ [⟨u, productId, qty⟩]

/-- Result of the remote-path addToCart: new rows plus emitted effects. -/
structure RemoteAddOutcome where
  rows : List RemoteRow
  toasts : List Toast
  logs : List String
deriving DecidableEq

/-- Remote-path addToCart (source lines 180-211): the upsert succeeds iff
the product id satisfies the cart_items.product_id foreign key; on FK
violation the thrown error is caught, logged, and surfaced as a
destructive toast, leaving the rows unchanged. -/
def addToCartRemote (products : List Product) (rows : List RemoteRow)
    (u productId : String) (qty : Int) : RemoteAddOutcome :=
  if productExists products productId then
    ⟨upsertRow rows u productId qty,
     [⟨"Added to cart",
       ((findProduct products productId).map Product.title).getD "Item" ++
         " has been added to your cart.",
       false⟩],
     []⟩
  else
    ⟨rows, [⟨"Error", "Failed to add item to cart.", true⟩],
     ["Error adding to cart:"]⟩

/-- Remote-path removeFromCart (source lines 259-266): delete the row. -/
def removeFromCartRemote (rows : List RemoteRow) (u productId : String) :
    List RemoteRow :=
  rows.filter (fun r => !(keyMatch u productId r))

/-- updateQuantity on the remote path (source lines 214-238): qty <= 0
delegates to remove; otherwise SQL update sets qty where both key columns
match (no error when no row matches). -/
def updateQuantityRemote (rows : List RemoteRow) (u productId : String)
    (qty : Int) : List RemoteRow :=
  if qty ≤ 0 then removeFromCartRemote rows u productId
  else
    rows.map
      (fun r => if keyMatch u productId r then { r with qty := qty } else r)

/-- The per-line loop of syncLocalCart: for each local item, await
addToCart(item.product_id, item.qty) on the remote path. -/
def mergeLocalItems (products : List Product) (u : String) :
    List CartItem → List RemoteRow → List RemoteRow
  | [], rows => rows
  | it :: rest, rows =>
      mergeLocalItems products u rest
        (addToCartRemote products rows u it.product_id it.qty).rows

/-- syncLocalCart (source lines 125-138): if the storage key is present,
merge every parsed line through addToCart and then remove the key
unconditionally; addToCart never rejects (it catches its own errors),
so the removal is always reached. Returns (remote rows, storage). -/
def syncLocalCart (products : List Product) (u : String)
    (rows : List RemoteRow) (localStored : Option (List CartItem)) :
    List RemoteRow × Option (List CartItem) :=
  match localStored with
  | none => (rows, none)
  | some localItems => (mergeLocalItems products u localItems rows, none)

/-- A JSON value; numeric literals are kept as written (no claim needs
numeric interpretation). -/
inductive Json where
  | null
  | bool (b : Bool)
  | num (lit : String)
  | str (s : String)
  | arr (elems : List Json)
  | obj (fields : List (String × Json))

/-- JSON insignificant whitespace. -/
def isWs (c : Char) : Bool :=
  c = ' ' || c = '\t' || c = '\n' || c = '\r'

/-- Drop leading whitespace. -/
def skipWs : List Char → List Char
  | [] => []
  | c :: rest => if isWs c then skipWs rest else c :: rest

/-- Single-character JSON string escapes. -/
def escChar (c : Char) : Option Char :=
  if c = '"' then some '"'
  else if c = '\\' then some '\\'
  else if c = '/' then some '/'
  else if c = 'b' then some (Char.ofNat 8)
  else if c = 'f' then some (Char.ofNat 12)
  else if c = 'n' then some '\n'
  else if c = 'r' then some '\r'
  else if c = 't' then some '\t'
  else none

/-- Hex digit value, if any. -/
def hexVal (c : Char) : Option Nat :=
  if c.isDigit then some (c.toNat - 48)
  else if 'a' ≤ c ∧ c ≤ 'f' then some (c.toNat - 97 + 10)
  else if 'A' ≤ c ∧ c ≤ 'F' then some (c.toNat - 65 + 10)
  else none

/-- Body of a JSON string after the opening quote; returns the decoded
characters and the input after the closing quote. -/
def parseStringBody : List Char → Option (List Char × List Char)
  | [] => none
  | '\\' :: 'u' :: a :: b :: c :: d :: rest =>
      match hexVal a, hexVal b, hexVal c, hexVal d with
      | some va, some vb, some vc, some vd =>
          (parseStringBody rest).map
            (fun sr =>
              (Char.ofNat (((va * 16 + vb) * 16 + vc) * 16 + vd) :: sr.1,
               sr.2))
      | _, _, _, _ => none
  | '\\' :: c :: rest =>
      match escChar c with
      | some e => (parseStringBody rest).map (fun sr => (e :: sr.1, sr.2))
      | none => none
  | '"' :: rest => some ([], rest)
  | c :: rest =>
      if c.toNat < 32 then none
      else (parseStringBody rest).map (fun sr => (c :: sr.1, sr.2))

/-- Digits of the integer part of a JSON number: a lone 0, or a nonzero
digit followed by digits. -/
def parseIntDigits (l : List Char) : Option (List Char × List Char) :=
  match l with
  | '0' :: rest => some (['0'], rest)
  | c :: rest =>
      if c.isDigit then
        let s := rest.span Char.isDigit
        some (c :: s.1, s.2)
      else none
  | [] => none

/-- One-or-more digits. -/
def parseDigits1 (l : List Char) : Option (List Char × List Char) :=
  match l with
  | c :: rest =>
      if c.isDigit then
        let s := rest.span Char.isDigit
        some (c :: s.1, s.2)
      else none
  | [] => none

/-- A JSON number literal (sign, integer part, optional fraction and
exponent), returned as the raw characters. -/
def parseNumberLit (l : List Char) : Option (List Char × List Char) :=
  let signed : List Char × List Char :=
    match l with
    | '-' :: rest => (['-'], rest)
    | _ => ([], l)
  match parseIntDigits signed.2 with
  | none => none
  | some (ip, r1) =>
      let frOpt : Option (List Char × List Char) :=
        match r1 with
        | '.' :: r2 =>
            match parseDigits1 r2 with
            | some (fd, r3) => some ('.' :: fd, r3)
            | none => none
        | _ => some ([], r1)
      match frOpt with
      | none => none
      | some (f, r3) =>
          match r3 with
          | e :: r4 =>
              if e = 'e' ∨ e = 'E' then
                let sg : List Char × List Char :=
                  match r4 with
                  | '+' :: r5 => (['+'], r5)
                  | '-' :: r5 => (['-'], r5)
                  | _ => ([], r4)
                match parseDigits1 sg.2 with
                | some (ed, r6) =>
                    some (signed.1 ++ ip ++ f ++ e :: sg.1 ++ ed, r6)
                | none => none
              else some (signed.1 ++ ip ++ f, r3)
          | [] => some (signed.1 ++ ip ++ f, [])

mutual

/-- Parse one JSON value (fuel-indexed recursive descent). -/
def parseValue : Nat → List Char → Option (Json × List Char)
  | 0, _ => none
  | Nat.succ fuel, l =>
      match skipWs l with
      | [] => none
      | '"' :: rest =>
          (parseStringBody rest).map (fun sr => (Json.str ⟨sr.1⟩, sr.2))
      | '[' :: rest =>
          match skipWs rest with
          | ']' :: r2 => some (Json.arr [], r2)
          | r2 => (parseElems fuel r2).map (fun er => (Json.arr er.1, er.2))
      | '{' :: rest =>
          match skipWs rest with
          | '}' :: r2 => some (Json.obj [], r2)
          | r2 => (parseMembers fuel r2).map (fun mr => (Json.obj mr.1, mr.2))
      | 't' :: 'r' :: 'u' :: 'e' :: rest => some (Json.bool true, rest)
      | 'f' :: 'a' :: 'l' :: 's' :: 'e' :: rest => some (Json.bool false, rest)
      | 'n' :: 'u' :: 'l' :: 'l' :: rest => some (Json.null, rest)
      | l' =>
          (parseNumberLit l').map (fun nr => (Json.num ⟨nr.1⟩, nr.2))

/-- Parse the remaining comma-separated elements of a non-empty array. -/
def parseElems : Nat → List Char → Option (List Json × List Char)
  | 0, _ => none
  | Nat.succ fuel, l =>
      match parseValue fuel l with
      | none => none
      | some (v, r) =>
          match skipWs r with
          | ',' :: r2 =>
              match parseElems fuel r2 with
              | none => none
              | some (vs, r3) => some (v :: vs, r3)
          | ']' :: r2 => some ([v], r2)
          | _ => none

/-- Parse the remaining members of a non-empty object. -/
def parseMembers : Nat → List Char →
    Option (List (String × Json) × List Char)
  | 0, _ => none
  | Nat.succ fuel, l =>
      match skipWs l with
      | '"' :: rest =>
          match parseStringBody rest with
          | none => none
          | some (k, r1) =>
              match skipWs r1 with
              | ':' :: r2 =>
                  match parseValue fuel r2 with
                  | none => none
                  | some (v, r3) =>
                      match skipWs r3 with
                      | ',' :: r4 =>
                          match parseMembers fuel r4 with
                          | none => none
                          | some (ms, r5) => some ((⟨k⟩, v) :: ms, r5)
                      | '}' :: r4 => some ([(⟨k⟩, v)], r4)
                      | _ => none
              | _ => none
      | _ => none

end

/-- JSON.parse: succeeds on a single well-formed JSON value (with only
trailing whitespace), otherwise throws a SyntaxError. -/
def jsonParse (s : String) : Except String Json :=
  match parseValue (2 * s.length + 4) s.data with
  | none => Except.error "SyntaxError: Unexpected token in JSON"
  | some (v, rest) =>
      if skipWs rest = [] then Except.ok v
      else Except.error "SyntaxError: Unexpected token after JSON value"

/-- loadLocalCart (source lines 118-123): a missing storage value leaves
the rendered items untouched; a present value is passed to JSON.parse with
no try/catch, so a parse error propagates to the caller; a parsed value
replaces the rendered items via setItems. -/
def loadLocalCart (stored : Option String) (items : Json) :
    Except String Json :=
  match stored with
  | none => Except.ok items
  | some s =>
      match jsonParse s with
      | Except.error e => Except.error e
      | Except.ok v => Except.ok v

/-- The decimal digit character for d (d < 10 in every use). -/
def digitChar (d : Nat) : Char := Char.ofNat (48 + d % 10)

/-- Fuel-indexed decimal writer; the fuel always suffices in natChars. -/
def natCharsAux : Nat → Nat → List Char
  | 0, _ => []
  | fuel + 1, n =>
      if n < 10 then [digitChar n]
      else natCharsAux fuel (n / 10) ++ [digitChar (n % 10)]

/-- Decimal representation of a natural number, most significant digit
first (the ::TEXT cast of a nonnegative BIGINT). -/
def natChars (n : Nat) : List Char := natCharsAux (n + 1) n

/-- Postgres LPAD: pad on the left with the fill character up to the
length, truncating on the right when the string is already longer. -/
def lpadChars (s : List Char) (n : Nat) (fill : Char) : List Char :=
  if n ≤ s.length then s.take n
  else List.replicate (n - s.length) fill ++ s

/-- Postgres RIGHT: the last n characters. -/
def rightChars (s : List Char) (n : Nat) : List Char :=
  s.drop (s.length - n)

/-- One candidate of generate_order_id, from the epoch milliseconds t and
the random draw r = FLOOR(RANDOM() * 100):
RIGHT(LPAD(t::TEXT, 10, 0) || LPAD(r::TEXT, 2, 0), 12). -/
def candidateChars (t r : Nat) : List Char :=
  rightChars (lpadChars (natChars t) 10 '0' ++ lpadChars (natChars r) 2 '0') 12

/-- The candidate as TEXT. -/
def candidate (t r : Nat) : String := ⟨candidateChars t r⟩

/-- generate_order_id (migration lines 244-268): loop drawing candidates
from time and randomness until one is absent from orders.order_id. The
entropy list supplies the successive (time, random) observations; none
models a run that never found a fresh id within the supplied draws. -/
def generate_order_id (orders : List String) :
    List (Nat × Nat) → Option String
  | [] => none
  | (t, r) :: rest =>
      let c := candidate t r
      if orders.contains c then generate_order_id orders rest
      else some c

/-- The key predicate ignores the qty field. -/
theorem keyMatch_set_qty (u p : String) (r : RemoteRow) (q : Int) :
    keyMatch u p { r with qty := q } = keyMatch u p r := rfl

/-- Unfolding the key predicate into propositional equalities. -/
theorem keyMatch_iff (u p : String) (r : RemoteRow) :
    keyMatch u p r = true ↔ r.user_id = u ∧ r.product_id = p := by
  simp [keyMatch]

/-- Mapping the qty-setting update over rows that contain a key match
makes the first key match carry exactly the new quantity. -/
theorem getQty_map_set (u p : String) (q : Int) :
    ∀ rows : List RemoteRow, rows.any (keyMatch u p) = true →
      getQty
        (rows.map
          (fun r => if keyMatch u p r then { r with qty := q } else r)) u p =
        some q := by
  intro rows h
  induction rows with
  | nil => simp at h
  | cons r rest ih =>
      rw [List.any_cons] at h
      by_cases hk : keyMatch u p r = true
      · simp only [List.map_cons, hk, if_true, getQty]
        rw [List.find?_cons_of_pos _ (by rw [keyMatch_set_qty]; exact hk)]
        rfl
      · simp only [List.map_cons, hk, if_false, Bool.false_eq_true]
        have hrest : rest.any (keyMatch u p) = true := by
          rcases Bool.or_eq_true_iff.mp h with h1 | h2
          · exact absurd h1 hk
          · exact h2
        simpa [getQty, List.find?_cons_of_neg _ hk] using ih hrest

/-- Appending a fresh key-matching row to rows without one makes the
lookup return exactly its quantity. -/
theorem getQty_append_new (u p : String) (q : Int) (rows : List RemoteRow)
    (h : rows.any (keyMatch u p) = false) :
    getQty (rows ++ [⟨u, p, q⟩]) u p = some q := by
  have hnone : rows.find? (keyMatch u p) = none :=
    List.find?_eq_none.mpr (List.any_eq_false.mp h)
  simp [getQty, List.find?_append, hnone, List.find?_cons_of_pos, keyMatch]

/-- The upsert leaves the looked-up quantity at exactly the given value,
whether or not a row for the key previously existed. -/
theorem getQty_upsert_self (rows : List RemoteRow) (u p : String) (q : Int) :
    getQty (upsertRow rows u p q) u p = some q := by
  unfold upsertRow
  by_cases h : rows.any (keyMatch u p) = true
  · simpa [h] using getQty_map_set u p q rows h
  · have h' : rows.any (keyMatch u p) = false := by
      revert h; cases rows.any (keyMatch u p) <;> simp
    simpa [h'] using getQty_append_new u p q rows h'

/-- The qty-setting map at one key does not change lookups at another. -/
theorem getQty_map_set_preserve (u p u' p' : String) (q : Int)
    (h : ¬(u' = u ∧ p' = p)) :
    ∀ rows : List RemoteRow,
      getQty
        (rows.map
          (fun r => if keyMatch u p r then { r with qty := q } else r)) u' p' =
        getQty rows u' p' := by
  intro rows
  induction rows with
  | nil => rfl
  | cons r rest ih =>
      by_cases hk' : keyMatch u' p' r = true
      · have hk : keyMatch u p r = false := by
          by_contra hc
          have hc' : keyMatch u p r = true := by
            revert hc; cases keyMatch u p r <;> simp
          rcases (keyMatch_iff u p r).mp hc' with ⟨e1, e2⟩
          rcases (keyMatch_iff u' p' r).mp hk' with ⟨e1', e2'⟩
          exact h ⟨e1' ▸ e1 ▸ rfl, e2' ▸ e2 ▸ rfl⟩
        simp only [List.map_cons, hk, if_false, Bool.false_eq_true, getQty]
        rw [List.find?_cons_of_pos _ hk', List.find?_cons_of_pos _ hk']
      · by_cases hk : keyMatch u p r = true
        · simp only [List.map_cons, hk, if_true, getQty]
          rw [List.find?_cons_of_neg _ (by rw [keyMatch_set_qty]; exact hk'),
            List.find?_cons_of_neg _ hk']
          simpa [getQty] using ih
        · simp only [List.map_cons, hk, if_false, Bool.false_eq_true, getQty]
          rw [List.find?_cons_of_neg _ hk', List.find?_cons_of_neg _ hk']
          simpa [getQty] using ih

/-- An upsert at one key does not change the lookup at any other key. -/
theorem getQty_upsert_preserve (rows : List RemoteRow)
    (u p u' p' : String) (q : Int) (h : ¬(u' = u ∧ p' = p)) :
    getQty (upsertRow rows u p q) u' p' = getQty rows u' p' := by
  unfold upsertRow
  split
  · exact getQty_map_set_preserve u p u' p' q h rows
  · have hnew : keyMatch u' p' (⟨u, p, q⟩ : RemoteRow) = false := by
      by_contra hc
      have hc' : keyMatch u' p' (⟨u, p, q⟩ : RemoteRow) = true := by
        revert hc; cases keyMatch u' p' (⟨u, p, q⟩ : RemoteRow) <;> simp
      rcases (keyMatch_iff u' p' _).mp hc' with ⟨e1, e2⟩
      exact h ⟨e1.symm, e2.symm⟩
    simp [getQty, List.find?_append, hnew, Option.or_none]

/-- The rows component of the remote addToCart: the upsert when the
product exists, the unchanged rows when the FK check fails. -/
theorem addToCartRemote_rows (products : List Product)
    (rows : List RemoteRow) (u pid : String) (q : Int) :
    (addToCartRemote products rows u pid q).rows =
      if productExists products pid then upsertRow rows u pid q else rows := by
  unfold addToCartRemote
  split <;> rfl

/-- Merging local lines whose products all differ from p leaves the
remote lookup at (u, p) unchanged. -/
theorem mergeLocalItems_preserve (products : List Product) (u p : String) :
    ∀ (items : List CartItem) (rows : List RemoteRow),
      (∀ it ∈ items, it.product_id ≠ p) →
      getQty (mergeLocalItems products u items rows) u p = getQty rows u p := by
  intro items
  induction items with
  | nil => intro rows _; rfl
  | cons it rest ih =>
      intro rows hne
      have hstep :
          getQty (addToCartRemote products rows u it.product_id it.qty).rows
              u p = getQty rows u p := by
        rw [addToCartRemote_rows]
        split
        · refine getQty_upsert_preserve rows u it.product_id u p it.qty ?_
          intro hc
          exact hne it (List.mem_cons_self it rest) hc.2.symm
        · rfl
      have htail := ih
        ((addToCartRemote products rows u it.product_id it.qty).rows)
        (fun x hx => hne x (List.mem_cons_of_mem _ hx))
      calc getQty (mergeLocalItems products u (it :: rest) rows) u p
          = getQty
              (mergeLocalItems products u rest
                (addToCartRemote products rows u it.product_id it.qty).rows)
              u p := rfl
        _ = getQty (addToCartRemote products rows u it.product_id
              it.qty).rows u p := htail
        _ = getQty rows u p := hstep

/-- C1 counterexample: reconciling the anonymous cart A:2, B:1 into a
remote cart already holding B:3 leaves B at quantity 1 (the local
quantity overwrites the remote one via the set-semantics upsert), not at
the additive 4 the claim predicts. -/
theorem syncLocalCart_overwrites_example :
    getQty
        (syncLocalCart
          [⟨"A", "Product A", 100, []⟩, ⟨"B", "Product B", 50, []⟩] "u"
          [⟨"u", "B", 3⟩]
          (some
            [⟨"l1", "A", "Product A", 100, 2, []⟩,
             ⟨"l2", "B", "Product B", 50, 1, []⟩])).1 "u" "B" = some 1 ∧
      getQty
        (syncLocalCart
          [⟨"A", "Product A", 100, []⟩, ⟨"B", "Product B", 50, []⟩] "u"
          [⟨"u", "B", 3⟩]
          (some
            [⟨"l1", "A", "Product A", 100, 2, []⟩,
             ⟨"l2", "B", "Product B", 50, 1, []⟩])).1 "u" "B" ≠ some 4 := by
  constructor
  · rfl
  · decide

/-- C1 (amended): sign-in reconciliation merges each local line with SET
semantics — a remote line for the same product has its quantity
overwritten by the local quantity, an absent product gets a line with
the local quantity — products outside the local cart keep their remote
quantity, and local storage is empty afterwards. -/
theorem syncLocalCart_set_semantics (products : List Product) (u : String)
    (rows : List RemoteRow) (localItems : List CartItem)
    (hnodup : (pidsOf localItems).Nodup)
    (hex : ∀ it ∈ localItems, productExists products it.product_id = true) :
    (∀ it ∈ localItems,
        getQty (syncLocalCart products u rows (some localItems)).1 u
            it.product_id = some it.qty) ∧
      (syncLocalCart products u rows (some localItems)).2 = none ∧
      ∀ p, (∀ it ∈ localItems, it.product_id ≠ p) →
        getQty (syncLocalCart products u rows (some localItems)).1 u p =
          getQty rows u p := by
  refine ⟨?_, rfl, ?_⟩
  · show ∀ it ∈ localItems,
      getQty (mergeLocalItems products u localItems rows) u it.product_id =
        some it.qty
    induction localItems generalizing rows with
    | nil => intro it hit; cases hit
    | cons x rest ih =>
        intro it hit
        have hx : productExists products x.product_id = true :=
          hex x (List.mem_cons_self x rest)
        have hrows1 :
            (addToCartRemote products rows u x.product_id x.qty).rows =
              upsertRow rows u x.product_id x.qty := by
          rw [addToCartRemote_rows]; simp [hx]
        have hnd :
            (∀ y ∈ rest, ¬y.product_id = x.product_id) ∧
              (List.map (fun z => z.product_id) rest).Nodup := by
          simpa [pidsOf] using hnodup
        rcases List.mem_cons.mp hit with rfl | hmem
        · have hrest : ∀ y ∈ rest, y.product_id ≠ it.product_id :=
            fun y hy => hnd.1 y hy
          calc getQty (mergeLocalItems products u (it :: rest) rows) u
                  it.product_id
              = getQty
                  (mergeLocalItems products u rest
                    (addToCartRemote products rows u it.product_id
                      it.qty).rows) u it.product_id := rfl
            _ = getQty (addToCartRemote products rows u it.product_id
                  it.qty).rows u it.product_id :=
                mergeLocalItems_preserve products u it.product_id rest _ hrest
            _ = some it.qty := by
                rw [hrows1]; exact getQty_upsert_self rows u it.product_id _
        · have hnodup' : (pidsOf rest).Nodup := hnd.2
          have hex' : ∀ y ∈ rest, productExists products y.product_id = true :=
            fun y hy => hex y (List.mem_cons_of_mem _ hy)
          exact ih _ hnodup' hex' it hmem
  · intro p hne
    exact mergeLocalItems_preserve products u p localItems rows hne

/-- C1 witness: the amended theorem applied to the spec's own example
(local A:2, B:1 against remote B:3): A ends at 2, B at 1, storage empty. -/
theorem syncLocalCart_set_semantics_witness :
    getQty
        (syncLocalCart
          [⟨"A", "Product A", 100, []⟩, ⟨"B", "Product B", 50, []⟩] "u"
          [⟨"u", "B", 3⟩]
          (some
            [⟨"l1", "A", "Product A", 100, 2, []⟩,
             ⟨"l2", "B", "Product B", 50, 1, []⟩])).1 "u" "A" = some 2 ∧
      (syncLocalCart
          [⟨"A", "Product A", 100, []⟩, ⟨"B", "Product B", 50, []⟩] "u"
          [⟨"u", "B", 3⟩]
          (some
            [⟨"l1", "A", "Product A", 100, 2, []⟩,
             ⟨"l2", "B", "Product B", 50, 1, []⟩])).2 = none := by
  have h := syncLocalCart_set_semantics
    [⟨"A", "Product A", 100, []⟩, ⟨"B", "Product B", 50, []⟩] "u"
    [⟨"u", "B", 3⟩]
    [⟨"l1", "A", "Product A", 100, 2, []⟩,
     ⟨"l2", "B", "Product B", 50, 1, []⟩]
    (by decide) (by decide)
  exact ⟨h.1 ⟨"l1", "A", "Product A", 100, 2, []⟩ (by decide), h.2.1⟩

/-- C2: the remote-path addToCart performs the (user, product)-keyed
upsert, whose SET semantics leave the line's quantity at exactly q
(replacing any previous quantity); with no prior line the row rows ++
new is created and the set and increment upserts coincide. -/
theorem addToCart_remote_upsert_sets (products : List Product)
    (rows : List RemoteRow) (u p : String) (q : Int)
    (hp : productExists products p = true) :
    (addToCartRemote products rows u p q).rows = upsertRow rows u p q ∧
      getQty (upsertRow rows u p q) u p = some q ∧
      (rowExists rows u p = false →
        upsertRow rows u p q = rows ++ [⟨u, p, q⟩] ∧
          upsertRow rows u p q = upsertRowAdd rows u p q) := by
  refine ⟨by rw [addToCartRemote_rows]; simp [hp],
    getQty_upsert_self rows u p q, ?_⟩
  intro habs
  have habs' : rows.any (keyMatch u p) = false := habs
  constructor
  · unfold upsertRow; simp [habs']
  · unfold upsertRow upsertRowAdd; simp [habs']

/-- C2 witness: adding product P with quantity 5 for user u over an
empty remote cart creates the single row (u, P, 5). -/
theorem addToCart_remote_upsert_sets_witness :
    (addToCartRemote [⟨"P", "T", 1, []⟩] [] "u" "P" 5).rows =
        upsertRow [] "u" "P" 5 ∧
      getQty (upsertRow [] "u" "P" 5) "u" "P" = some 5 ∧
      upsertRow [] "u" "P" 5 = [] ++ [⟨"u", "P", 5⟩] ∧
      upsertRow [] "u" "P" 5 = upsertRowAdd [] "u" "P" 5 := by
  have h := addToCart_remote_upsert_sets [⟨"P", "T", 1, []⟩] [] "u" "P" 5
    (by decide)
  exact ⟨h.1, h.2.1, (h.2.2 (by decide)).1, (h.2.2 (by decide)).2⟩

/-- C3: after a reconciliation run over any (in particular non-empty)
local cart, the local store is none, with no hypothesis on the catalog —
so also when per-line merges fail; and a failed merge (missing product,
FK-rejected upsert) leaves the remote rows unchanged and surfaces only a
caught, toasted error, dropping that line rather than raising. -/
theorem syncLocalCart_clears_local (products : List Product) (u : String)
    (rows : List RemoteRow) (localItems : List CartItem) :
    (syncLocalCart products u rows (some localItems)).2 = none ∧
      ∀ (rows2 : List RemoteRow) (pid : String) (q : Int),
        productExists products pid = false →
          (addToCartRemote products rows2 u pid q).rows = rows2 ∧
            (addToCartRemote products rows2 u pid q).toasts =
              [⟨"Error", "Failed to add item to cart.", true⟩] := by
  refine ⟨rfl, ?_⟩
  intro rows2 pid q hmiss
  unfold addToCartRemote
  simp [hmiss]

/-- C3 witness: a cart with one line whose product is gone from the
catalog still ends with empty local storage, and the failed merge left
the remote rows unchanged with the error toast. -/
theorem syncLocalCart_clears_local_witness :
    (syncLocalCart [] "u" [] (some [⟨"l1", "A", "T", 1, 2, []⟩])).2 = none ∧
      (addToCartRemote [] [] "u" "A" 2).rows = [] ∧
      (addToCartRemote [] [] "u" "A" 2).toasts =
        [⟨"Error", "Failed to add item to cart.", true⟩] := by
  have h := syncLocalCart_clears_local [] "u" [] [⟨"l1", "A", "T", 1, 2, []⟩]
  exact ⟨h.1, (h.2 [] "A" 2 (by decide)).1, (h.2 [] "A" 2 (by decide)).2⟩

/-- C4 counterexample: an unparsable stored value ("x") makes
loadLocalCart propagate the JSON.parse error instead of yielding an
empty cart — refuting the claim that missing and unparsable values are
treated identically and that the load never throws. -/
theorem loadLocalCart_unparsable_throws_example :
    loadLocalCart (some "x") (Json.arr []) =
      Except.error "SyntaxError: Unexpected token in JSON" := rfl

/-- C4 (amended): a missing stored value leaves the rendered items
unchanged (the empty list at initial mount), but a present value goes
through JSON.parse with no try/catch, so an unparsable value propagates
the SyntaxError to the caller; only a successfully parsed value replaces
the items. -/
theorem loadLocalCart_missing_and_error_behavior (prev : Json) (s : String) :
    loadLocalCart none prev = Except.ok prev ∧
      (∀ e, jsonParse s = Except.error e →
        loadLocalCart (some s) prev = Except.error e) ∧
      ∀ v, jsonParse s = Except.ok v →
        loadLocalCart (some s) prev = Except.ok v := by
  have hred : loadLocalCart (some s) prev =
      match jsonParse s with
      | Except.error e => Except.error e
      | Except.ok v => Except.ok v := rfl
  refine ⟨rfl, ?_, ?_⟩
  · intro e he
    rw [hred, he]
  · intro v hv
    rw [hred, hv]

/-- C4 witness: the amended behavior at the initial empty-items state —
no stored value yields ok with the previous (empty) items, and the
unparsable value "x" yields the propagated SyntaxError. -/
theorem loadLocalCart_missing_and_error_behavior_witness :
    loadLocalCart none (Json.arr []) = Except.ok (Json.arr []) ∧
      loadLocalCart (some "x") (Json.arr []) =
        Except.error "SyntaxError: Unexpected token in JSON" :=
  ⟨(loadLocalCart_missing_and_error_behavior (Json.arr []) "x").1,
   (loadLocalCart_missing_and_error_behavior (Json.arr []) "x").2.1 _ rfl⟩

/-- The product lookup fails exactly when no catalog row has the id. -/
theorem findProduct_eq_none (products : List Product) (pid : String)
    (h : productExists products pid = false) :
    findProduct products pid = none := by
  refine List.find?_eq_none.mpr ?_
  intro x hx
  exact (List.any_eq_false.mp h) x hx

/-- C5 counterexample: on the anonymous path, addToCart for a product id
absent from the catalog returns silently — no toast, no log — so the
claimed logged, user-surfaced NotFound notification does not happen on
that path (the cart is indeed unchanged). -/
theorem addToCart_local_missing_product_silent_example :
    (addToCartLocal [] "f1" [] "P" 1).toasts = [] ∧
      (addToCartLocal [] "f1" [] "P" 1).logs = [] ∧
      (addToCartLocal [] "f1" [] "P" 1).items = [] :=
  ⟨rfl, rfl, rfl⟩

/-- C5 (amended): with a missing product, neither path propagates a
fault and neither changes the cart, but only the authenticated path
logs and surfaces the failure (caught FK error, destructive toast); the
anonymous path is a silent no-op with no notification at all. -/
theorem addToCart_missing_product_behavior (products : List Product)
    (fid : String) (st : List CartItem) (rows : List RemoteRow)
    (u pid : String) (q : Int)
    (h : productExists products pid = false) :
    addToCartLocal products fid st pid q = ⟨st, [], []⟩ ∧
      addToCartRemote products rows u pid q =
        ⟨rows, [⟨"Error", "Failed to add item to cart.", true⟩],
          ["Error adding to cart:"]⟩ := by
  constructor
  · unfold addToCartLocal
    rw [findProduct_eq_none products pid h]
  · unfold addToCartRemote
    simp [h]

/-- C5 witness: the amended behavior at an empty catalog. -/
theorem addToCart_missing_product_behavior_witness :
    addToCartLocal [] "f1" [⟨"l1", "A", "T", 1, 1, []⟩] "P" 2 =
        ⟨[⟨"l1", "A", "T", 1, 1, []⟩], [], []⟩ ∧
      addToCartRemote [] [⟨"u", "A", 1⟩] "u" "P" 2 =
        ⟨[⟨"u", "A", 1⟩], [⟨"Error", "Failed to add item to cart.", true⟩],
          ["Error adding to cart:"]⟩ :=
  addToCart_missing_product_behavior [] "f1" [⟨"l1", "A", "T", 1, 1, []⟩]
    [⟨"u", "A", 1⟩] "u" "P" 2 (by decide)

/-- The first-match increment does not change the product_id column. -/
theorem pidsOf_bumpFirst (pid : String) (q : Int) :
    ∀ items : List CartItem, pidsOf (bumpFirst pid q items) = pidsOf items := by
  intro items
  induction items with
  | nil => rfl
  | cons it rest ih =>
      unfold bumpFirst
      by_cases hk : itemMatch pid it = true
      · simp [hk, pidsOf]
      · simp only [hk, if_false, Bool.false_eq_true, pidsOf, List.map_cons]
        simpa [pidsOf] using ih

/-- The exact-quantity map does not change the product_id column. -/
theorem pidsOf_map_set (pid : String) (q : Int) (items : List CartItem) :
    pidsOf
        (items.map
          (fun it => if itemMatch pid it then { it with qty := q } else it)) =
      pidsOf items := by
  induction items with
  | nil => rfl
  | cons it rest ih =>
      by_cases hk : itemMatch pid it = true
      · simpa [pidsOf, hk] using ih
      · simpa [pidsOf, hk] using ih

/-- When no line matches, the product id is not among the cart's ids. -/
theorem not_mem_pidsOf_of_no_match (pid : String) (items : List CartItem)
    (h : items.any (itemMatch pid) = false) : pid ∉ pidsOf items := by
  intro hmem
  rcases List.mem_map.mp hmem with ⟨it, hit, he⟩
  have := List.any_eq_false.mp h it hit
  exact this (by simp [itemMatch, he])

/-- A filter of a Nodup product_id column keeps it Nodup. -/
theorem pidsOf_filter_nodup (items : List CartItem) (f : CartItem → Bool)
    (h : (pidsOf items).Nodup) : (pidsOf (items.filter f)).Nodup := by
  have hsub : (pidsOf (items.filter f)).Sublist (pidsOf items) :=
    List.Sublist.map _ (List.filter_sublist items)
  exact hsub.nodup h

/-- C6: every anonymous-path mutation preserves uniqueness of product_id
in the cart: a repeated add increments the first existing line rather
than creating a duplicate, update maps quantities in place, remove
filters, clear empties. -/
theorem localMutations_preserve_unique_product_id (products : List Product)
    (fid : String) (st : List CartItem) (pid : String) (q : Int)
    (h : (pidsOf st).Nodup) :
    (pidsOf (addToCartLocal products fid st pid q).items).Nodup ∧
      (pidsOf (updateQuantityLocal st pid q)).Nodup ∧
      (pidsOf (removeFromCartLocal st pid)).Nodup ∧
      (pidsOf clearCartLocal).Nodup := by
  refine ⟨?_, ?_, ?_, by simp [clearCartLocal, pidsOf]⟩
  · unfold addToCartLocal
    cases hf : findProduct products pid with
    | none => exact h
    | some pr =>
        by_cases hany : st.any (itemMatch pid) = true
        · simpa [hany, pidsOf_bumpFirst] using h
        · have hany' : st.any (itemMatch pid) = false := by
            revert hany; cases st.any (itemMatch pid) <;> simp
          simp only [hany', if_false, Bool.false_eq_true]
          show (pidsOf (st ++ [⟨fid, pid, pr.title, pr.price, q,
            pr.images⟩])).Nodup
          rw [pidsOf, List.map_append]
          refine List.nodup_append.mpr ⟨h, List.nodup_singleton pid, ?_⟩
          intro x hx hx'
          have hxp : x = pid := by simpa [pidsOf] using hx'
          exact not_mem_pidsOf_of_no_match pid st hany' (hxp ▸ hx)
  · unfold updateQuantityLocal
    split
    · exact pidsOf_filter_nodup st _ h
    · simpa [pidsOf_map_set] using h
  · exact pidsOf_filter_nodup st _ h

/-- C6 witness: the four mutations applied to the two-line cart A:1, B:2
with product A being re-added all keep the product ids unique. -/
theorem localMutations_preserve_unique_product_id_witness :
    (pidsOf [(⟨"l1", "A", "T", 1, 1, []⟩ : CartItem),
        ⟨"l2", "B", "T2", 2, 2, []⟩]).Nodup ∧
      (pidsOf (addToCartLocal [⟨"A", "T", 1, []⟩] "f"
          [⟨"l1", "A", "T", 1, 1, []⟩, ⟨"l2", "B", "T2", 2, 2, []⟩]
          "A" 1).items).Nodup :=
  ⟨by decide,
   (localMutations_preserve_unique_product_id [⟨"A", "T", 1, []⟩] "f"
      [⟨"l1", "A", "T", 1, 1, []⟩, ⟨"l2", "B", "T2", 2, 2, []⟩] "A" 1
      (by decide)).1⟩

/-- The first-match increment passes unchanged over a prefix with no
matching line. -/
theorem bumpFirst_append_no_match (pid : String) (q : Int)
    (st l : List CartItem) (h : st.any (itemMatch pid) = false) :
    bumpFirst pid q (st ++ l) = st ++ bumpFirst pid q l := by
  induction st with
  | nil => rfl
  | cons it rest ih =>
      rw [List.any_cons] at h
      have hit : itemMatch pid it = false := by
        revert h; cases itemMatch pid it <;> simp
      have hrest : rest.any (itemMatch pid) = false := by
        revert h; cases rest.any (itemMatch pid) <;> simp
      have hstep : bumpFirst pid q (it :: (rest ++ l)) =
          it :: bumpFirst pid q (rest ++ l) := by
        show (if itemMatch pid it then { it with qty := it.qty + q } ::
            (rest ++ l) else it :: bumpFirst pid q (rest ++ l)) =
          it :: bumpFirst pid q (rest ++ l)
        rw [hit]
        simp
      show bumpFirst pid q (it :: (rest ++ l)) =
        it :: (rest ++ bumpFirst pid q l)
      rw [hstep, ih hrest]

/-- A cart with no matching line filters to the empty list under the
match predicate. -/
theorem filter_match_nil (pid : String) (st : List CartItem)
    (h : st.any (itemMatch pid) = false) :
    st.filter (itemMatch pid) = [] :=
  List.filter_eq_nil_iff.mpr (List.any_eq_false.mp h)

/-- C7: two anonymous-path adds of the same existing product, starting
from a cart with no line for it, leave exactly one line for that
product, carrying quantity q1 + q2 and the product's title, price and
images captured at the first add. -/
theorem addToCart_local_twice_accumulates (products : List Product)
    (pr : Product) (id1 id2 : String) (st : List CartItem) (pid : String)
    (q1 q2 : Int) (hfind : findProduct products pid = some pr)
    (habs : st.any (itemMatch pid) = false) :
    ((addToCartLocal products id2
          (addToCartLocal products id1 st pid q1).items pid q2).items.filter
        (itemMatch pid)) =
      [⟨id1, pid, pr.title, pr.price, q1 + q2, pr.images⟩] := by
  have hnew : itemMatch pid
      (⟨id1, pid, pr.title, pr.price, q1, pr.images⟩ : CartItem) = true := by
    simp [itemMatch]
  have heq : ∀ (fid : String) (cur : List CartItem) (q : Int),
      addToCartLocal products fid cur pid q =
        ⟨if cur.any (itemMatch pid) then bumpFirst pid q cur
          else cur ++ [⟨fid, pid, pr.title, pr.price, q, pr.images⟩],
         [⟨"Added to cart", pr.title ++ " has been added to your cart.",
           false⟩],
         []⟩ := by
    intro fid cur q
    unfold addToCartLocal
    rw [hfind]
  have h1 : (addToCartLocal products id1 st pid q1).items =
      st ++ [⟨id1, pid, pr.title, pr.price, q1, pr.images⟩] := by
    rw [heq]
    simp [habs]
  have hany2 : (st ++ [(⟨id1, pid, pr.title, pr.price, q1, pr.images⟩ :
      CartItem)]).any (itemMatch pid) = true := by
    rw [List.any_append]
    simp [hnew]
  have hbump : bumpFirst pid q2
      (st ++ [⟨id1, pid, pr.title, pr.price, q1, pr.images⟩]) =
      st ++ [⟨id1, pid, pr.title, pr.price, q1 + q2, pr.images⟩] := by
    rw [bumpFirst_append_no_match pid q2 st _ habs]
    show st ++ (if itemMatch pid
        (⟨id1, pid, pr.title, pr.price, q1, pr.images⟩ : CartItem) then
        [⟨id1, pid, pr.title, pr.price, q1 + q2, pr.images⟩] else _) = _
    rw [hnew]
    simp
  have h2 : (addToCartLocal products id2
      (addToCartLocal products id1 st pid q1).items pid q2).items =
      st ++ [⟨id1, pid, pr.title, pr.price, q1 + q2, pr.images⟩] := by
    rw [h1, heq]
    simp only [hany2, if_true]
    exact hbump
  rw [h2, List.filter_append, filter_match_nil pid st habs]
  simp [itemMatch]

/-- C7 witness: adding product P with 2 then 3 to an empty anonymous
cart yields the single line with quantity 5. -/
theorem addToCart_local_twice_accumulates_witness :
    ((addToCartLocal [⟨"P", "T", 10, []⟩] "f2"
          (addToCartLocal [⟨"P", "T", 10, []⟩] "f1" [] "P" 2).items
          "P" 3).items.filter (itemMatch "P")) =
      [⟨"f1", "P", "T", 10, 5, []⟩] :=
  addToCart_local_twice_accumulates [⟨"P", "T", 10, []⟩] ⟨"P", "T", 10, []⟩
    "f1" "f2" [] "P" 2 3 (by decide) (by decide)

/-- The match predicate ignores the qty field of a line. -/
theorem itemMatch_set_qty (pid : String) (it : CartItem) (q : Int) :
    itemMatch pid { it with qty := q } = itemMatch pid it := rfl

/-- Mapping the exact-quantity update over a cart that has a matching
line makes the first matching line carry exactly the new quantity. -/
theorem getQtyLocal_map_set (pid : String) (q : Int) :
    ∀ items : List CartItem, items.any (itemMatch pid) = true →
      getQtyLocal
          (items.map
            (fun it => if itemMatch pid it then { it with qty := q } else it))
          pid = some q := by
  intro items h
  induction items with
  | nil => simp at h
  | cons it rest ih =>
      rw [List.any_cons] at h
      by_cases hk : itemMatch pid it = true
      · simp only [List.map_cons, hk, if_true, getQtyLocal]
        rw [List.find?_cons_of_pos _ (by rw [itemMatch_set_qty]; exact hk)]
        rfl
      · simp only [List.map_cons, hk, if_false, Bool.false_eq_true]
        have hrest : rest.any (itemMatch pid) = true := by
          rcases Bool.or_eq_true_iff.mp h with h1 | h2
          · exact absurd h1 hk
          · exact h2
        simpa [getQtyLocal, List.find?_cons_of_neg _ hk] using ih hrest

/-- Updating to a set quantity over rows that have a key match makes the
first key match carry exactly the new quantity (remote update path). -/
theorem getQty_update_set (u pid : String) (q : Int)
    (rows : List RemoteRow) (h : rowExists rows u pid = true)
    (hq : ¬q ≤ 0) :
    getQty (updateQuantityRemote rows u pid q) u pid = some q := by
  unfold updateQuantityRemote
  rw [if_neg hq]
  exact getQty_map_set u pid q rows h

/-- C8: on either path a non-positive requested quantity makes
updateQuantity literally delegate to removeFromCart, producing the same
cart state; a quantity of at least 1 sets an existing line's stored
quantity to exactly that value. -/
theorem updateQuantity_remove_equivalence_and_set (st : List CartItem)
    (rows : List RemoteRow) (u pid : String) (q : Int) :
    (q ≤ 0 →
        updateQuantityLocal st pid q = removeFromCartLocal st pid ∧
          updateQuantityRemote rows u pid q = removeFromCartRemote rows u pid) ∧
      (1 ≤ q →
        (st.any (itemMatch pid) = true →
          getQtyLocal (updateQuantityLocal st pid q) pid = some q) ∧
          (rowExists rows u pid = true →
            getQty (updateQuantityRemote rows u pid q) u pid = some q)) := by
  constructor
  · intro hq
    constructor
    · unfold updateQuantityLocal; rw [if_pos hq]
    · unfold updateQuantityRemote; rw [if_pos hq]
  · intro hq
    have hq' : ¬q ≤ 0 := by omega
    constructor
    · intro hany
      unfold updateQuantityLocal
      rw [if_neg hq']
      exact getQtyLocal_map_set pid q st hany
    · intro hrow
      exact getQty_update_set u pid q rows hrow hq'

/-- C8 witness: at q = 0 both paths coincide with remove on concrete
one-line carts; at q = 7 the existing lines are set to exactly 7. -/
theorem updateQuantity_remove_equivalence_and_set_witness :
    (updateQuantityLocal [⟨"l1", "A", "T", 1, 2, []⟩] "A" 0 =
        removeFromCartLocal [⟨"l1", "A", "T", 1, 2, []⟩] "A" ∧
      updateQuantityRemote [⟨"u", "A", 2⟩] "u" "A" 0 =
        removeFromCartRemote [⟨"u", "A", 2⟩] "u" "A") ∧
      getQtyLocal (updateQuantityLocal [⟨"l1", "A", "T", 1, 2, []⟩] "A" 7)
          "A" = some 7 ∧
      getQty (updateQuantityRemote [⟨"u", "A", 2⟩] "u" "A" 7) "u" "A" =
        some 7 := by
  have h0 := updateQuantity_remove_equivalence_and_set
    [⟨"l1", "A", "T", 1, 2, []⟩] [⟨"u", "A", 2⟩] "u" "A" 0
  have h7 := updateQuantity_remove_equivalence_and_set
    [⟨"l1", "A", "T", 1, 2, []⟩] [⟨"u", "A", 2⟩] "u" "A" 7
  exact ⟨h0.1 (by decide),
    (h7.2 (by decide)).1 (by decide), (h7.2 (by decide)).2 (by decide)⟩

/-- The exact-quantity map is the identity when no line matches. -/
theorem map_set_no_match (pid : String) (q : Int) :
    ∀ items : List CartItem, items.any (itemMatch pid) = false →
      items.map
          (fun it => if itemMatch pid it then { it with qty := q } else it) =
        items := by
  intro items h
  induction items with
  | nil => rfl
  | cons it rest ih =>
      rw [List.any_cons] at h
      have hit : itemMatch pid it = false := by
        revert h; cases itemMatch pid it <;> simp
      have hrest : rest.any (itemMatch pid) = false := by
        revert h; cases rest.any (itemMatch pid) <;> simp
      simp only [List.map_cons, hit, if_false, Bool.false_eq_true,
        List.cons.injEq, true_and]
      exact ih hrest

/-- C10: on the anonymous path, updateQuantity with a positive quantity
for a product with no line in the cart leaves the cart exactly
unchanged — it creates no line, alters no other line, and signals
nothing. -/
theorem updateQuantity_local_absent_noop (st : List CartItem) (pid : String)
    (q : Int) (h1 : 1 ≤ q) (h2 : st.any (itemMatch pid) = false) :
    updateQuantityLocal st pid q = st := by
  unfold updateQuantityLocal
  rw [if_neg (by omega : ¬q ≤ 0)]
  exact map_set_no_match pid q st h2

/-- C10 witness: setting product B to 2 in a cart holding only A leaves
the cart untouched. -/
theorem updateQuantity_local_absent_noop_witness :
    updateQuantityLocal [⟨"l1", "A", "T", 1, 1, []⟩] "B" 2 =
      [⟨"l1", "A", "T", 1, 1, []⟩] :=
  updateQuantity_local_absent_noop [⟨"l1", "A", "T", 1, 1, []⟩] "B" 2
    (by decide) (by decide)

/-- Each produced digit character is a decimal digit. -/
theorem digitChar_isDigit (d : Nat) : (digitChar d).isDigit = true := by
  have h : d % 10 < 10 := Nat.mod_lt _ (by omega)
  unfold digitChar
  generalize d % 10 = m at h ⊢
  interval_cases m <;> decide

/-- Every character written by the decimal writer is a digit. -/
theorem natCharsAux_digits :
    ∀ (fuel n : Nat), ∀ c ∈ natCharsAux fuel n, c.isDigit = true := by
  intro fuel
  induction fuel with
  | zero => intro n c hc; simp [natCharsAux] at hc
  | succ fuel ih =>
      intro n c hc
      unfold natCharsAux at hc
      by_cases h : n < 10
      · rw [if_pos h] at hc
        simp at hc
        subst hc
        exact digitChar_isDigit n
      · rw [if_neg h] at hc
        rcases List.mem_append.mp hc with h1 | h2
        · exact ih _ c h1
        · simp at h2
          subst h2
          exact digitChar_isDigit _

/-- LPAD always yields exactly the requested length (padding when short,
truncating on the right when long). -/
theorem lpadChars_length (s : List Char) (n : Nat) (f : Char) :
    (lpadChars s n f).length = n := by
  unfold lpadChars
  split
  · rw [List.length_take]; omega
  · rw [List.length_append, List.length_replicate]; omega

/-- Every character of an LPAD result is from the source or the fill. -/
theorem lpadChars_mem (s : List Char) (n : Nat) (f : Char) :
    ∀ c ∈ lpadChars s n f, c ∈ s ∨ c = f := by
  intro c hc
  unfold lpadChars at hc
  split at hc
  · exact Or.inl (List.take_subset n s hc)
  · rcases List.mem_append.mp hc with h1 | h2
    · exact Or.inr (List.mem_replicate.mp h1).2
    · exact Or.inl h2

/-- The RIGHT(..., 12) is the identity here: the concatenation already
has length exactly 10 + 2. -/
theorem candidateChars_eq (t r : Nat) :
    candidateChars t r =
      lpadChars (natChars t) 10 '0' ++ lpadChars (natChars r) 2 '0' := by
  unfold candidateChars rightChars
  have hlen : (lpadChars (natChars t) 10 '0' ++
      lpadChars (natChars r) 2 '0').length = 12 := by
    rw [List.length_append, lpadChars_length, lpadChars_length]
  rw [hlen]
  simp

/-- Every candidate is 12 characters long. -/
theorem candidateChars_length (t r : Nat) :
    (candidateChars t r).length = 12 := by
  rw [candidateChars_eq, List.length_append, lpadChars_length,
    lpadChars_length]

/-- Every candidate consists of decimal digits only. -/
theorem candidateChars_digits (t r : Nat) :
    ∀ c ∈ candidateChars t r, c.isDigit = true := by
  intro c hc
  rw [candidateChars_eq] at hc
  rcases List.mem_append.mp hc with h | h
  · rcases lpadChars_mem _ _ _ c h with h' | h'
    · exact natCharsAux_digits _ _ c h'
    · subst h'; decide
  · rcases lpadChars_mem _ _ _ c h with h' | h'
    · exact natCharsAux_digits _ _ c h'
    · subst h'; decide

/-- C9: whenever generate_order_id returns, the result is a 12-character
all-digit string that, at the moment of the collision check, is not
among the existing orders' order_id values — the loop keeps drawing
fresh candidates from time and randomness until the check passes. -/
theorem generate_order_id_unique_12_digits (orders : List String)
    (entropy : List (Nat × Nat)) (s : String)
    (h : generate_order_id orders entropy = some s) :
    s.length = 12 ∧ s.data.all Char.isDigit = true ∧
      orders.contains s = false := by
  induction entropy with
  | nil => simp [generate_order_id] at h
  | cons tr rest ih =>
      rcases tr with ⟨t, r⟩
      have h' : (if orders.contains (candidate t r) = true then
          generate_order_id orders rest else some (candidate t r)) =
          some s := h
      by_cases hc : orders.contains (candidate t r) = true
      · rw [if_pos hc] at h'
        exact ih h'
      · rw [if_neg hc] at h'
        have hs : candidate t r = s := Option.some.inj h'
        subst hs
        have hcf : orders.contains (candidate t r) = false := by
          revert hc; cases orders.contains (candidate t r) <;> simp
        refine ⟨?_, ?_, hcf⟩
        · show (candidateChars t r).length = 12
          exact candidateChars_length t r
        · exact List.all_eq_true.mpr (candidateChars_digits t r)

/-- C9 witness: with the order id 000000000000 already taken, the draws
(0, 0) then (1758690000123, 45) make the loop reject the colliding first
candidate and return 175869000045, a fresh 12-digit code. -/
theorem generate_order_id_unique_12_digits_witness :
    generate_order_id ["000000000000"] [(0, 0), (1758690000123, 45)] =
        some "175869000045" ∧
      ("175869000045" : String).length = 12 ∧
      ("175869000045" : String).data.all Char.isDigit = true ∧
      (["000000000000"] : List String).contains "175869000045" = false := by
  have hgen : generate_order_id ["000000000000"]
      [(0, 0), (1758690000123, 45)] = some "175869000045" := by decide
  have h := generate_order_id_unique_12_digits ["000000000000"]
    [(0, 0), (1758690000123, 45)] "175869000045" hgen
  exact ⟨hgen, h.1, h.2.1, h.2.2⟩
